import Mathlib

/-!
Verification of the collision-detection abstraction layer of DART
(`dart/collision/CollisionDetector.cpp`): the convenience `collide`
overloads with their lazily-initialized scratch option/result pair, and
the two collision-object cache managers (exclusive and shared policy)
with their custom deleters.

The embedding is shallow: shape-frame handles and filter objects are
opaque identifiers (`Nat`), backend collision objects are records with a
fresh numeric identity, shared-pointer reference counts are explicit
fields, and the C++ `std::map` is an association list.  The virtual core
`collide(group(s), option, result)` overload is backend-specific and not
part of this translation unit, so the convenience overloads are modelled
by the arguments they delegate to it together with the state they mutate.
-/

namespace Dart

/-- `CollisionOption` (value type): `enableContact`, `binaryCheck`,
`maxNumContacts`, and an optional collision filter, which we model as an
opaque identifier (`none` is the C++ `nullptr`). -/
structure CollisionOption where
  enableContact : Bool
  binaryCheck : Bool
  maxNumContacts : Nat
  collisionFilter : Option Nat
deriving Repr, DecidableEq

/-- The detector state touched by the convenience `collide` overloads:
the lazily constructed scratch (dummy) `CollisionOption` and the
initialization flag of the scratch `CollisionResult` (its contact
contents are owned by the backend core query and are not modelled). -/
structure OptState where
  mDummyCollisionOption : Option CollisionOption
  mDummyCollisionResultInit : Bool
deriving Repr, DecidableEq

/-- Detector state at construction: both scratch members are null. -/
def initOptState : OptState := ⟨none, false⟩

/-- `CollisionDetector::getDummyCollisionOption`: lazily constructs the
scratch option as `CollisionOption(false, true, 1u, nullptr)` and
returns (a reference to) it. -/
def getDummyCollisionOption (s : OptState) : CollisionOption × OptState :=
  match s.mDummyCollisionOption with
  | some o => (o, s)
  | none =>
      let o : CollisionOption := ⟨false, true, 1, none⟩
      (o, { s with mDummyCollisionOption := some o })

/-- `CollisionDetector::getDummyCollisionResult`: lazily constructs the
scratch result; only the initialization effect is modelled. -/
def getDummyCollisionResult (s : OptState) : OptState :=
  { s with mDummyCollisionResultInit := true }

/-- The arguments a convenience `collide` overload hands to the core
(backend-implemented) `collide(group(s), option, result)` call: the
option value passed and whether the result sink is the detector's
scratch `CollisionResult`. -/
structure DelegatedCall where
  option : CollisionOption
  usesScratchResult : Bool
deriving Repr, DecidableEq

/-- Outcome of a convenience `collide` overload: the delegated core
call, the detector state afterwards, and whether the three `assert`s
guarding the scratch option held (vacuously `true` on the
`binaryCheck` fast path, which contains no asserts). -/
structure CollideOutcome where
  call : DelegatedCall
  state : OptState
  assertsOk : Bool
deriving Repr, DecidableEq

/-- `CollisionDetector::collide(CollisionGroup* group, const
CollisionOption& option)`: if `option.binaryCheck` holds, delegate with
the caller's option and the scratch result; otherwise fetch the scratch
option, overwrite its `collisionFilter` with the caller's, assert its
binary-check shape, and delegate it with the scratch result.  The
`group` pointer is opaque and passed through to the core call. -/
def collideOne (s : OptState) (_group : Nat) (option : CollisionOption) :
    CollideOutcome :=
  if option.binaryCheck then
    { call := ⟨option, true⟩
      state := getDummyCollisionResult s
      assertsOk := true }
  else
    let r := getDummyCollisionOption s
    let collisionOption := { r.1 with collisionFilter := option.collisionFilter }
    let s1 := { r.2 with mDummyCollisionOption := some collisionOption }
    let ok := (collisionOption.enableContact == false)
      && (collisionOption.binaryCheck == true)
      && (collisionOption.maxNumContacts == 1)
    { call := ⟨collisionOption, true⟩
      state := getDummyCollisionResult s1
      assertsOk := ok }

/-- `CollisionDetector::collide(CollisionGroup* group1, CollisionGroup*
group2, const CollisionOption& option)`: identical option/scratch logic
to the one-group overload, delegating to the two-group core call. -/
def collideTwo (s : OptState) (_group1 _group2 : Nat)
    (option : CollisionOption) : CollideOutcome :=
  if option.binaryCheck then
    { call := ⟨option, true⟩
      state := getDummyCollisionResult s
      assertsOk := true }
  else
    let r := getDummyCollisionOption s
    let collisionOption := { r.1 with collisionFilter := option.collisionFilter }
    let s1 := { r.2 with mDummyCollisionOption := some collisionOption }
    let ok := (collisionOption.enableContact == false)
      && (collisionOption.binaryCheck == true)
      && (collisionOption.maxNumContacts == 1)
    { call := ⟨collisionOption, true⟩
      state := getDummyCollisionResult s1
      assertsOk := ok }

/-- The scratch-option invariant: whenever the detector's dummy
`CollisionOption` has been constructed, its non-filter fields are the
binary-check configuration `enableContact = false`, `binaryCheck =
true`, `maxNumContacts = 1`. -/
def DummyInv (s : OptState) : Prop :=
  ∀ o, s.mDummyCollisionOption = some o →
    o.enableContact = false ∧ o.binaryCheck = true ∧ o.maxNumContacts = 1

instance (s : OptState) : Decidable (DummyInv s) := by
  unfold DummyInv
  cases s.mDummyCollisionOption with
  | none => exact isTrue (by intro o h; cases h)
  | some o =>
      exact decidable_of_iff
        (o.enableContact = false ∧ o.binaryCheck = true ∧ o.maxNumContacts = 1)
        ⟨fun h o' h' => by cases h'; exact h, fun h => h o rfl⟩

/-- A live backend `CollisionObject`: a fresh numeric identity `oid`
(distinct per construction), the shape-frame handle it was created for
(`object->getShapeFrame()`), and the number of owning `shared_ptr`
references currently alive. -/
structure LiveObj where
  oid : Nat
  frame : Nat
  refCount : Nat
deriving Repr, DecidableEq

/-- An event the custom deleters perform when the last owning reference
to a collision object is released. -/
inductive DeleterEvent where
  | notifyDestroying (oid : Nat)
  | eraseMapEntry (frame : Nat)
  | deleteObject (oid : Nat)
deriving Repr, DecidableEq

/-- State of `ManagerForSharableCollisionObjects`: the weak-reference
map `mCollisionObjectMap` from shape-frame handle to object identity (an
association list standing for the C++ `std::map`), the set of live
objects with their reference counts (the ambient `shared_ptr`
bookkeeping), and the next fresh object identity. -/
structure SharedState where
  cmap : List (Nat × Nat)
  objs : List LiveObj
  nextId : Nat
deriving Repr, DecidableEq

/-- A freshly constructed shared-policy manager: empty map, no live
objects. -/
def initSharedState : SharedState := ⟨[], [], 0⟩

/-- `mCollisionObjectMap.find(shapeFrame)`: look up the weak entry for a
shape-frame handle. -/
def lookupFrame (m : List (Nat × Nat)) (h : Nat) : Option Nat :=
  (m.find? (fun p => p.1 = h)).map Prod.snd

/-- Find the live object with a given identity (the successful
`weak_ptr::lock`); `none` means the object is dead. -/
def findObj (objs : List LiveObj) (oid : Nat) : Option LiveObj :=
  objs.find? (fun o => o.oid = oid)

/-- Increment the owning reference count of object `oid` (copying a
`shared_ptr`). -/
def incRef (s : SharedState) (oid : Nat) : SharedState :=
  let bump := fun (o : LiveObj) =>
    if o.oid = oid then { o with refCount := o.refCount + 1 } else o
  { s with objs := s.objs.map bump }

/-- `ManagerForSharableCollisionObjects::claimCollisionObject`: search
the map; on a hit, assert the weak reference locks (a dead entry is the
internal-consistency fault, modelled as `none`) and return a new owning
reference to the same object; on a miss, construct a fresh object with
one owning reference and store the weak entry. -/
def claimShared (s : SharedState) (h : Nat) : Option (Nat × SharedState) :=
  match lookupFrame s.cmap h with
  | some oid =>
      match findObj s.objs oid with
      | some _ => some (oid, incRef s oid)
      | none => none
  | none =>
      let oid := s.nextId
      some (oid,
        { cmap := (h, oid) :: s.cmap
          objs := ⟨oid, h, 1⟩ :: s.objs
          nextId := s.nextId + 1 })

/-- `ManagerForSharableCollisionObjects::CollisionObjectDeleter::
operator()`: notify the owning detector that the object is being
destroyed, erase the map entry keyed by the object's shape-frame, then
delete the backend object.  Returns the state afterwards and the events
in execution order. -/
def sharedDeleter (s : SharedState) (o : LiveObj) :
    SharedState × List DeleterEvent :=
  ({ cmap := s.cmap.filter (fun p => ¬ p.1 = o.frame)
     objs := s.objs.filter (fun o2 => ¬ o2.oid = o.oid)
     nextId := s.nextId },
   [DeleterEvent.notifyDestroying o.oid,
    DeleterEvent.eraseMapEntry o.frame,
    DeleterEvent.deleteObject o.oid])

/-- Decrement the owning reference count of object `oid` (a non-final
`shared_ptr` release). -/
def decRef (s : SharedState) (oid : Nat) : SharedState :=
  let drop := fun (o : LiveObj) =>
    if o.oid = oid then { o with refCount := o.refCount - 1 } else o
  { s with objs := s.objs.map drop }

/-- Release one owning reference to object `oid` under the shared
policy: decrement the reference count, and on the last release run the
custom deleter.  Releasing an identity with no live object is a no-op
(there is no such reference to release). -/
def releaseShared (s : SharedState) (oid : Nat) :
    SharedState × List DeleterEvent :=
  match findObj s.objs oid with
  | none => (s, [])
  | some o =>
      if o.refCount ≤ 1 then sharedDeleter s o
      else (decRef s oid, [])

/-- State of `ManagerForUnsharableCollisionObjects`: no map is kept;
only the next fresh object identity. -/
structure ExclState where
  nextId : Nat
deriving Repr, DecidableEq

/-- A freshly constructed exclusive-policy manager. -/
def initExclState : ExclState := ⟨0⟩

/-- An owning reference handed out by the exclusive-policy manager:
identity and the shape-frame it was constructed for. -/
structure ExclObj where
  oid : Nat
  frame : Nat
deriving Repr, DecidableEq

/-- `ManagerForUnsharableCollisionObjects::claimCollisionObject`:
unconditionally construct a brand-new backend object for the shape-frame
and hand it out with the manager's custom deleter attached. -/
def claimExclusive (s : ExclState) (h : Nat) : ExclObj × ExclState :=
  (⟨s.nextId, h⟩, ⟨s.nextId + 1⟩)

/-- `ManagerForUnsharableCollisionObjects::CollisionObjectDeleter::
operator()`: notify the owning detector, then delete the backend
object; no map entry exists to erase. -/
def exclusiveDeleter (o : ExclObj) : List DeleterEvent :=
  [DeleterEvent.notifyDestroying o.oid, DeleterEvent.deleteObject o.oid]

/-- Iterate `claimCollisionObject` calls of the exclusive-policy
manager over a list of shape-frame handles, collecting the returned
objects in order. -/
def claimManyExclusive (s : ExclState) : List Nat → List ExclObj × ExclState
  | [] => ([], s)
  | h :: hs =>
      let r := claimExclusive s h
      let rest := claimManyExclusive r.2 hs
      (r.1 :: rest.1, rest.2)

/-- The detector's collision-object manager, one of the two policies. -/
inductive Manager where
  | unshared (st : ExclState)
  | shared (st : SharedState)
deriving Repr, DecidableEq

/-- The detector state relevant to `claimCollisionObject`: the
lazily-initialized `mCollisionObjectManager`. -/
structure DetState where
  mgr : Option Manager
deriving Repr, DecidableEq

/-- `CollisionDetector::claimCollisionObject`: if no manager has been
set yet, construct a `ManagerForUnsharableCollisionObjects`; then
delegate the claim to the manager.  The result is `none` only on the
shared-policy dead-weak-reference assertion failure. -/
def claimCollisionObject (s : DetState) (h : Nat) :
    Option (Nat × DetState) :=
  let m := match s.mgr with
    | none => Manager.unshared initExclState
    | some m => m
  match m with
  | Manager.unshared st =>
      let r := claimExclusive st h
      some (r.1.oid, ⟨some (Manager.unshared r.2)⟩)
  | Manager.shared st =>
      (claimShared st h).map (fun r => (r.1, ⟨some (Manager.shared r.2)⟩))

/-- Internal consistency of the shared-policy manager: map keys are
distinct (`std::map`), object identities are distinct (each from a fresh
construction), every weak map entry denotes a live object whose
shape-frame is the entry's key, every live object is indexed under its
shape-frame, every live object has at least one owning reference, and
all identities are below the fresh-identity counter. -/
structure SharedInv (s : SharedState) : Prop where
  keysNodup : (s.cmap.map Prod.fst).Nodup
  oidsNodup : (s.objs.map LiveObj.oid).Nodup
  mapLive : ∀ p ∈ s.cmap, ∃ o ∈ s.objs, o.oid = p.2 ∧ o.frame = p.1
  liveMapped : ∀ o ∈ s.objs, (o.frame, o.oid) ∈ s.cmap
  refPos : ∀ o ∈ s.objs, 1 ≤ o.refCount
  oidLt : ∀ o ∈ s.objs, o.oid < s.nextId

theorem lookupFrame_eq_none {m : List (Nat × Nat)} {h : Nat} :
    lookupFrame m h = none ↔ ∀ p ∈ m, ¬ p.1 = h := by
  simp [lookupFrame, List.find?_eq_none]

theorem lookupFrame_mem {m : List (Nat × Nat)} {h v : Nat}
    (hl : lookupFrame m h = some v) : (h, v) ∈ m := by
  unfold lookupFrame at hl
  cases hf : m.find? (fun p => p.1 = h) with
  | none => rw [hf] at hl; cases hl
  | some p =>
      rw [hf] at hl
      have hp : p.1 = h := by simpa using List.find?_some hf
      have hm := List.mem_of_find?_eq_some hf
      have hv : p.2 = v := by simpa using hl
      cases p
      simp only at hp hv
      rw [hp, hv] at hm
      exact hm

theorem mem_lookupFrame {m : List (Nat × Nat)} {h v : Nat}
    (hnd : (m.map Prod.fst).Nodup) (hm : (h, v) ∈ m) :
    lookupFrame m h = some v := by
  induction m with
  | nil => cases hm
  | cons p t ih =>
      rcases List.mem_cons.mp hm with hc | ht
      · rw [← hc]
        simp [lookupFrame, List.find?]
      · rw [List.map_cons] at hnd
        have hnd2 := List.nodup_cons.mp hnd
        have hne : ¬ p.1 = h := by
          intro he
          exact hnd2.1 (by
            rw [he]
            exact List.mem_map_of_mem Prod.fst ht)
        have := ih hnd2.2 ht
        simpa [lookupFrame, List.find?, hne] using this

theorem findObj_eq_none {objs : List LiveObj} {oid : Nat} :
    findObj objs oid = none ↔ ∀ o ∈ objs, ¬ o.oid = oid := by
  simp [findObj, List.find?_eq_none]

theorem findObj_mem {objs : List LiveObj} {oid : Nat} {o : LiveObj}
    (hf : findObj objs oid = some o) : o ∈ objs ∧ o.oid = oid := by
  refine ⟨List.mem_of_find?_eq_some hf, ?_⟩
  simpa using List.find?_some hf

theorem mem_findObj {objs : List LiveObj}
    (hnd : (objs.map LiveObj.oid).Nodup) {o : LiveObj} (hm : o ∈ objs) :
    findObj objs o.oid = some o := by
  induction objs with
  | nil => cases hm
  | cons a t ih =>
      rcases List.mem_cons.mp hm with hc | ht
      · rw [← hc]
        simp [findObj, List.find?]
      · rw [List.map_cons] at hnd
        have hnd2 := List.nodup_cons.mp hnd
        have hne : ¬ a.oid = o.oid := by
          intro he
          exact hnd2.1 (by
            rw [he]
            exact List.mem_map_of_mem LiveObj.oid ht)
        have := ih hnd2.2 ht
        simpa [findObj, List.find?, hne] using this

/-- Mapping a function that only adjusts reference counts leaves the
identity sequence of the object list unchanged. -/
theorem map_oid_refUpdate (l : List LiveObj) (f : LiveObj → LiveObj)
    (hf : ∀ o, (f o).oid = o.oid) :
    (l.map f).map LiveObj.oid = l.map LiveObj.oid := by
  induction l with
  | nil => rfl
  | cons a t ih => simp [hf, ih]

/-- Distinct map keys determine values uniquely. -/
theorem key_inj {m : List (Nat × Nat)} (hnd : (m.map Prod.fst).Nodup)
    {k v v' : Nat} (h1 : (k, v) ∈ m) (h2 : (k, v') ∈ m) : v = v' := by
  have := List.inj_on_of_nodup_map hnd h1 h2 rfl
  exact congrArg Prod.snd this

/-- Distinct identities determine live objects uniquely. -/
theorem oid_inj {objs : List LiveObj} (hnd : (objs.map LiveObj.oid).Nodup)
    {o1 o2 : LiveObj} (h1 : o1 ∈ objs) (h2 : o2 ∈ objs)
    (he : o1.oid = o2.oid) : o1 = o2 :=
  List.inj_on_of_nodup_map hnd h1 h2 he

theorem sharedInv_init : SharedInv initSharedState := by
  constructor <;> simp [initSharedState]

/-- A reference-count-only rewrite of the object list that keeps every
count positive preserves the shared-manager invariant. -/
theorem sharedInv_mapRef {s : SharedState} (hinv : SharedInv s)
    (f : LiveObj → LiveObj)
    (hoid : ∀ o, (f o).oid = o.oid)
    (hfr : ∀ o, (f o).frame = o.frame)
    (hrc : ∀ o ∈ s.objs, 1 ≤ (f o).refCount) :
    SharedInv { s with objs := s.objs.map f } := by
  constructor
  · exact hinv.keysNodup
  · show ((s.objs.map f).map LiveObj.oid).Nodup
    rw [map_oid_refUpdate _ f hoid]
    exact hinv.oidsNodup
  · intro p hp
    obtain ⟨o, ho, h1, h2⟩ := hinv.mapLive p hp
    exact ⟨f o, List.mem_map_of_mem f ho, by rw [hoid, h1], by rw [hfr, h2]⟩
  · intro o' ho'
    obtain ⟨o, ho, rfl⟩ := List.mem_map.mp ho'
    rw [hoid, hfr]
    exact hinv.liveMapped o ho
  · intro o' ho'
    obtain ⟨o, ho, rfl⟩ := List.mem_map.mp ho'
    exact hrc o ho
  · intro o' ho'
    obtain ⟨o, ho, rfl⟩ := List.mem_map.mp ho'
    show (f o).oid < s.nextId
    rw [hoid]
    exact hinv.oidLt o ho

/-- Computation rule for `claimShared` on a live cache hit. -/
theorem claimShared_hit {s : SharedState} {h oid : Nat} {o : LiveObj}
    (hl : lookupFrame s.cmap h = some oid)
    (hf : findObj s.objs oid = some o) :
    claimShared s h = some (oid, incRef s oid) := by
  unfold claimShared
  simp only [hl, hf]

/-- Computation rule for `claimShared` on a dead weak reference (the
assertion failure). -/
theorem claimShared_dead {s : SharedState} {h oid : Nat}
    (hl : lookupFrame s.cmap h = some oid)
    (hf : findObj s.objs oid = none) :
    claimShared s h = none := by
  unfold claimShared
  simp only [hl, hf]

/-- Computation rule for `claimShared` on a cache miss: construct,
store the weak entry, return the first owning reference. -/
theorem claimShared_miss {s : SharedState} {h : Nat}
    (hl : lookupFrame s.cmap h = none) :
    claimShared s h = some (s.nextId,
      ⟨(h, s.nextId) :: s.cmap, ⟨s.nextId, h, 1⟩ :: s.objs, s.nextId + 1⟩) := by
  unfold claimShared
  rw [hl]

/-- Computation rule for `releaseShared` when the released identity has
no live object. -/
theorem releaseShared_none {s : SharedState} {oid : Nat}
    (hf : findObj s.objs oid = none) : releaseShared s oid = (s, []) := by
  unfold releaseShared
  rw [hf]

/-- Computation rule for `releaseShared` on the last owning reference:
the custom deleter runs. -/
theorem releaseShared_last {s : SharedState} {oid : Nat} {o : LiveObj}
    (hf : findObj s.objs oid = some o) (hrc : o.refCount ≤ 1) :
    releaseShared s oid = sharedDeleter s o := by
  unfold releaseShared
  rw [hf]
  simp [hrc]

/-- Computation rule for `releaseShared` on a non-final release: only
the reference count drops. -/
theorem releaseShared_dec {s : SharedState} {oid : Nat} {o : LiveObj}
    (hf : findObj s.objs oid = some o) (hrc : ¬ o.refCount ≤ 1) :
    releaseShared s oid = (decRef s oid, []) := by
  unfold releaseShared
  rw [hf]
  simp [hrc]

/-- `claimCollisionObject` under the shared policy preserves the
invariant. -/
theorem sharedInv_claim {s : SharedState} {h : Nat} {r : Nat × SharedState}
    (hinv : SharedInv s) (hc : claimShared s h = some r) : SharedInv r.2 := by
  cases hl : lookupFrame s.cmap h with
  | some oid =>
      cases hf : findObj s.objs oid with
      | none => rw [claimShared_dead hl hf] at hc; cases hc
      | some o =>
          rw [claimShared_hit hl hf] at hc
          have hr := Option.some.inj hc
          rw [← hr]
          show SharedInv (incRef s oid)
          unfold incRef
          apply sharedInv_mapRef hinv
          · intro o2; by_cases h2 : o2.oid = oid <;> simp [h2]
          · intro o2; by_cases h2 : o2.oid = oid <;> simp [h2]
          · intro o2 ho2
            have := hinv.refPos o2 ho2
            by_cases h2 : o2.oid = oid <;> simp [h2] <;> try omega
  | none =>
      rw [claimShared_miss hl] at hc
      have hr := Option.some.inj hc
      rw [← hr]
      have hkeys := lookupFrame_eq_none.mp hl
      constructor
      · show (((h, s.nextId) :: s.cmap).map Prod.fst).Nodup
        rw [List.map_cons]
        refine List.nodup_cons.mpr ⟨?_, hinv.keysNodup⟩
        intro hmem
        obtain ⟨p, hp, hp1⟩ := List.mem_map.mp hmem
        exact hkeys p hp hp1
      · show ((LiveObj.mk s.nextId h 1 :: s.objs).map LiveObj.oid).Nodup
        rw [List.map_cons]
        refine List.nodup_cons.mpr ⟨?_, hinv.oidsNodup⟩
        intro hmem
        obtain ⟨o, ho, ho1⟩ := List.mem_map.mp hmem
        exact absurd ho1 (Nat.ne_of_lt (hinv.oidLt o ho))
      · intro p hp
        rcases List.mem_cons.mp hp with hc1 | ht
        · subst hc1
          exact ⟨⟨s.nextId, h, 1⟩, List.mem_cons_self _ _, rfl, rfl⟩
        · obtain ⟨o, ho, h1, h2⟩ := hinv.mapLive p ht
          exact ⟨o, List.mem_cons_of_mem _ ho, h1, h2⟩
      · intro o ho
        rcases List.mem_cons.mp ho with hc1 | ht
        · rw [hc1]
          exact List.mem_cons_self _ _
        · exact List.mem_cons_of_mem _ (hinv.liveMapped o ht)
      · intro o ho
        rcases List.mem_cons.mp ho with hc1 | ht
        · rw [hc1]
        · exact hinv.refPos o ht
      · intro o ho
        rcases List.mem_cons.mp ho with hc1 | ht
        · rw [hc1]; exact Nat.lt_succ_self _
        · exact Nat.lt_succ_of_lt (hinv.oidLt o ht)

/-- The shared-policy deleter (notify, erase by shape-frame key, delete)
preserves the invariant. -/
theorem sharedInv_deleter {s : SharedState} (hinv : SharedInv s)
    {o : LiveObj} (ho : o ∈ s.objs) : SharedInv (sharedDeleter s o).1 := by
  unfold sharedDeleter
  constructor
  · exact List.Nodup.sublist
      (List.Sublist.map Prod.fst (List.filter_sublist s.cmap)) hinv.keysNodup
  · exact List.Nodup.sublist
      (List.Sublist.map LiveObj.oid (List.filter_sublist s.objs)) hinv.oidsNodup
  · intro p hp
    have hp2 := List.mem_filter.mp hp
    have hpne : ¬ p.1 = o.frame := by simpa using hp2.2
    obtain ⟨o2, ho2, h1, h2⟩ := hinv.mapLive p hp2.1
    have hne : ¬ o2.oid = o.oid := by
      intro he
      have heq : o2 = o := oid_inj hinv.oidsNodup ho2 ho he
      exact hpne (by rw [← h2, heq])
    exact ⟨o2, List.mem_filter.mpr ⟨ho2, by simpa using hne⟩, h1, h2⟩
  · intro o2 ho2
    have ho22 := List.mem_filter.mp ho2
    have hne : ¬ o2.oid = o.oid := by simpa using ho22.2
    have hfr : ¬ o2.frame = o.frame := by
      intro he
      have h1 := hinv.liveMapped o2 ho22.1
      have h2 := hinv.liveMapped o ho
      rw [he] at h1
      exact hne (key_inj hinv.keysNodup h1 h2)
    exact List.mem_filter.mpr ⟨hinv.liveMapped o2 ho22.1, by simpa using hfr⟩
  · intro o2 ho2
    exact hinv.refPos o2 (List.mem_filter.mp ho2).1
  · intro o2 ho2
    exact hinv.oidLt o2 (List.mem_filter.mp ho2).1

/-- Releasing an owning reference under the shared policy preserves the
invariant. -/
theorem sharedInv_release {s : SharedState} (hinv : SharedInv s)
    (oid : Nat) : SharedInv (releaseShared s oid).1 := by
  cases hf : findObj s.objs oid with
  | none => rw [releaseShared_none hf]; exact hinv
  | some o =>
      have hom := findObj_mem hf
      by_cases hrc : o.refCount ≤ 1
      · rw [releaseShared_last hf hrc]
        exact sharedInv_deleter hinv hom.1
      · rw [releaseShared_dec hf hrc]
        unfold decRef
        apply sharedInv_mapRef hinv
        · intro o2; by_cases h2 : o2.oid = oid <;> simp [h2]
        · intro o2; by_cases h2 : o2.oid = oid <;> simp [h2]
        · intro o2 ho2
          by_cases h2 : o2.oid = oid
          · have : o2 = o := oid_inj hinv.oidsNodup ho2 hom.1 (h2.trans hom.2.symm)
            simp only [h2, if_true]
            rw [this]
            omega
          · have := hinv.refPos o2 ho2
            simp only [h2, if_false]
            exact this

/-- The states of the shared-policy manager reachable from its
construction by claim and release operations. -/
inductive SharedReachable : SharedState → Prop where
  | init : SharedReachable initSharedState
  | claim (s : SharedState) (h : Nat) (r : Nat × SharedState) :
      SharedReachable s → claimShared s h = some r → SharedReachable r.2
  | release (s : SharedState) (oid : Nat) :
      SharedReachable s → SharedReachable (releaseShared s oid).1

/-- Every reachable shared-manager state satisfies the invariant. -/
theorem sharedReachable_inv {s : SharedState} (hr : SharedReachable s) :
    SharedInv s := by
  induction hr with
  | init => exact sharedInv_init
  | claim s h r _ hc ih => exact sharedInv_claim ih hc
  | release s oid _ ih => exact sharedInv_release ih oid

theorem getDummyCollisionOption_none {s : OptState}
    (hs : s.mDummyCollisionOption = none) :
    getDummyCollisionOption s =
      (⟨false, true, 1, none⟩,
       { s with mDummyCollisionOption := some ⟨false, true, 1, none⟩ }) := by
  unfold getDummyCollisionOption
  rw [hs]

theorem getDummyCollisionOption_some {s : OptState} {d : CollisionOption}
    (hs : s.mDummyCollisionOption = some d) :
    getDummyCollisionOption s = (d, s) := by
  unfold getDummyCollisionOption
  rw [hs]

/-- Under the scratch-option invariant, the scratch option fetched by
`getDummyCollisionOption` has the binary-check field values. -/
theorem getDummy_fields {s : OptState} (hinv : DummyInv s) :
    (getDummyCollisionOption s).1.enableContact = false
    ∧ (getDummyCollisionOption s).1.binaryCheck = true
    ∧ (getDummyCollisionOption s).1.maxNumContacts = 1 := by
  cases hs : s.mDummyCollisionOption with
  | none => rw [getDummyCollisionOption_none hs]; exact ⟨rfl, rfl, rfl⟩
  | some d => rw [getDummyCollisionOption_some hs]; exact hinv d hs

/-- Fetching the scratch option preserves the scratch-option
invariant. -/
theorem dummyInv_getDummy {s : OptState} (hinv : DummyInv s) :
    DummyInv (getDummyCollisionOption s).2 := by
  cases hs : s.mDummyCollisionOption with
  | none =>
      rw [getDummyCollisionOption_none hs]
      intro o ho
      cases Option.some.inj ho
      exact ⟨rfl, rfl, rfl⟩
  | some d => rw [getDummyCollisionOption_some hs]; exact hinv

theorem collideOne_binary {s : OptState} {g : Nat} {o : CollisionOption}
    (hb : o.binaryCheck = true) :
    collideOne s g o = ⟨⟨o, true⟩, getDummyCollisionResult s, true⟩ := by
  unfold collideOne
  rw [hb]
  rfl

theorem collideTwo_binary {s : OptState} {g g2 : Nat} {o : CollisionOption}
    (hb : o.binaryCheck = true) :
    collideTwo s g g2 o = ⟨⟨o, true⟩, getDummyCollisionResult s, true⟩ := by
  unfold collideTwo
  rw [hb]
  rfl

theorem collideOne_nonbinary {s : OptState} {g : Nat} {o : CollisionOption}
    (hb : o.binaryCheck = false) :
    collideOne s g o =
      ⟨⟨{ (getDummyCollisionOption s).1 with collisionFilter := o.collisionFilter }, true⟩,
       getDummyCollisionResult
         { (getDummyCollisionOption s).2 with
             mDummyCollisionOption :=
               some { (getDummyCollisionOption s).1 with
                        collisionFilter := o.collisionFilter } },
       ((getDummyCollisionOption s).1.enableContact == false)
         && ((getDummyCollisionOption s).1.binaryCheck == true)
         && ((getDummyCollisionOption s).1.maxNumContacts == 1)⟩ := by
  unfold collideOne
  rw [hb]
  rfl

theorem collideTwo_nonbinary {s : OptState} {g g2 : Nat} {o : CollisionOption}
    (hb : o.binaryCheck = false) :
    collideTwo s g g2 o =
      ⟨⟨{ (getDummyCollisionOption s).1 with collisionFilter := o.collisionFilter }, true⟩,
       getDummyCollisionResult
         { (getDummyCollisionOption s).2 with
             mDummyCollisionOption :=
               some { (getDummyCollisionOption s).1 with
                        collisionFilter := o.collisionFilter } },
       ((getDummyCollisionOption s).1.enableContact == false)
         && ((getDummyCollisionOption s).1.binaryCheck == true)
         && ((getDummyCollisionOption s).1.maxNumContacts == 1)⟩ := by
  unfold collideTwo
  rw [hb]
  rfl

/-- Under the scratch-option invariant, the option a non-binary
convenience call delegates is the forced-binary scratch option carrying
the caller's filter. -/
theorem collide_nonbinary_call {s : OptState} {g g2 : Nat}
    {o : CollisionOption} (hinv : DummyInv s) (hb : o.binaryCheck = false) :
    (collideOne s g o).call = ⟨⟨false, true, 1, o.collisionFilter⟩, true⟩
    ∧ (collideTwo s g g2 o).call = ⟨⟨false, true, 1, o.collisionFilter⟩, true⟩ := by
  obtain ⟨h1, h2, h3⟩ := getDummy_fields hinv
  rw [collideOne_nonbinary hb, collideTwo_nonbinary hb]
  cases hd : (getDummyCollisionOption s).1
  rw [hd] at h1 h2 h3
  simp only at h1 h2 h3
  rw [h1, h2, h3]
  exact ⟨rfl, rfl⟩

/-- C1 (counterexample): calling the convenience `collide(group,
option)` with `binaryCheck = false` does NOT delegate the caller's
option unchanged: for the concrete option `(enableContact := true,
binaryCheck := false, maxNumContacts := 5, no filter)` the option handed
to the core overload differs from the caller's. -/
theorem collide_nonbinary_option_not_preserved :
    ¬ ((collideOne initOptState 0 ⟨true, false, 5, none⟩).call.option
        = ⟨true, false, 5, none⟩) := by
  decide

/-- C1 (amended): for every detector state satisfying the scratch-option
invariant and every option with `binaryCheck = false`, the convenience
`collide(group, option)` delegates to the core overload with the
detector's scratch result and the forced-binary scratch option
(`enableContact = false`, `binaryCheck = true`, `maxNumContacts = 1`)
carrying only the caller's `collisionFilter` — it IS a forced binary
check, not the caller's option with a scratch result. -/
theorem collide_nonbinary_forced_binary (s : OptState) (g : Nat)
    (o : CollisionOption) (hinv : DummyInv s) (hb : o.binaryCheck = false) :
    (collideOne s g o).call = ⟨⟨false, true, 1, o.collisionFilter⟩, true⟩ :=
  (@collide_nonbinary_call s g 0 o hinv hb).1

/-- Witness for C1 (amended) at a concrete non-binary option. -/
theorem collide_nonbinary_forced_binary_witness :
    (collideOne initOptState 0 ⟨true, false, 5, some 7⟩).call
      = ⟨⟨false, true, 1, some 7⟩, true⟩ :=
  collide_nonbinary_forced_binary initOptState 0 ⟨true, false, 5, some 7⟩
    (by decide) rfl

/-- C2: both convenience `collide` overloads delegate to the core
overload with the detector's scratch result; with the caller's option
when `binaryCheck` is true, and otherwise with the forced-binary scratch
option into which only the caller's `collisionFilter` is copied. -/
theorem collide_convenience_delegation (s : OptState) (g1 g2 : Nat)
    (o : CollisionOption) (hinv : DummyInv s) :
    (o.binaryCheck = true →
      (collideOne s g1 o).call = ⟨o, true⟩
      ∧ (collideTwo s g1 g2 o).call = ⟨o, true⟩)
    ∧ (o.binaryCheck = false →
      (collideOne s g1 o).call = ⟨⟨false, true, 1, o.collisionFilter⟩, true⟩
      ∧ (collideTwo s g1 g2 o).call = ⟨⟨false, true, 1, o.collisionFilter⟩, true⟩) := by
  constructor
  · intro hb
    rw [collideOne_binary hb, collideTwo_binary hb]
    exact ⟨rfl, rfl⟩
  · intro hb
    exact collide_nonbinary_call hinv hb

/-- Witness for C2 at a concrete binary and a concrete non-binary
option. -/
theorem collide_convenience_delegation_witness :
    ((collideOne initOptState 0 ⟨false, true, 1, none⟩).call
        = ⟨⟨false, true, 1, none⟩, true⟩
      ∧ (collideTwo initOptState 0 1 ⟨false, true, 1, none⟩).call
        = ⟨⟨false, true, 1, none⟩, true⟩)
    ∧ ((collideOne initOptState 0 ⟨true, false, 0, some 3⟩).call
        = ⟨⟨false, true, 1, some 3⟩, true⟩
      ∧ (collideTwo initOptState 0 1 ⟨true, false, 0, some 3⟩).call
        = ⟨⟨false, true, 1, some 3⟩, true⟩) :=
  ⟨(collide_convenience_delegation initOptState 0 1 ⟨false, true, 1, none⟩
      (by decide)).1 rfl,
   (collide_convenience_delegation initOptState 0 1 ⟨true, false, 0, some 3⟩
      (by decide)).2 rfl⟩

/-- C9: the scratch option is constructed as `CollisionOption(false,
true, 1, nullptr)`; the invariant that its `enableContact`,
`binaryCheck` and `maxNumContacts` fields keep those values holds at the
initial state and is preserved by both convenience overloads, and the
asserts checking it inside them always pass. -/
theorem dummy_option_invariant :
    DummyInv initOptState
    ∧ (∀ s : OptState, s.mDummyCollisionOption = none →
        (getDummyCollisionOption s).1 = ⟨false, true, 1, none⟩)
    ∧ (∀ (s : OptState) (g : Nat) (o : CollisionOption), DummyInv s →
        DummyInv (collideOne s g o).state
        ∧ (collideOne s g o).assertsOk = true)
    ∧ (∀ (s : OptState) (g1 g2 : Nat) (o : CollisionOption), DummyInv s →
        DummyInv (collideTwo s g1 g2 o).state
        ∧ (collideTwo s g1 g2 o).assertsOk = true) := by
  refine ⟨by decide, ?_, ?_, ?_⟩
  · intro s hs
    rw [getDummyCollisionOption_none hs]
  · intro s g o hinv
    obtain ⟨h1, h2, h3⟩ := getDummy_fields hinv
    cases hb : o.binaryCheck
    · rw [collideOne_nonbinary hb]
      refine ⟨?_, by simp [h1, h2, h3]⟩
      intro o' ho'
      cases Option.some.inj ho'
      exact ⟨h1, h2, h3⟩
    · rw [collideOne_binary hb]
      exact ⟨hinv, rfl⟩
  · intro s g1 g2 o hinv
    obtain ⟨h1, h2, h3⟩ := getDummy_fields hinv
    cases hb : o.binaryCheck
    · rw [collideTwo_nonbinary hb]
      refine ⟨?_, by simp [h1, h2, h3]⟩
      intro o' ho'
      cases Option.some.inj ho'
      exact ⟨h1, h2, h3⟩
    · rw [collideTwo_binary hb]
      exact ⟨hinv, rfl⟩

/-- Witness for C9 at concrete states and options. -/
theorem dummy_option_invariant_witness :
    (getDummyCollisionOption initOptState).1 = ⟨false, true, 1, none⟩
    ∧ (DummyInv (collideOne initOptState 0 ⟨true, false, 0, some 4⟩).state
        ∧ (collideOne initOptState 0 ⟨true, false, 0, some 4⟩).assertsOk = true)
    ∧ (DummyInv (collideTwo initOptState 0 1 ⟨true, false, 0, some 4⟩).state
        ∧ (collideTwo initOptState 0 1 ⟨true, false, 0, some 4⟩).assertsOk = true) :=
  ⟨dummy_option_invariant.2.1 initOptState rfl,
   dummy_option_invariant.2.2.1 initOptState 0 ⟨true, false, 0, some 4⟩ (by decide),
   dummy_option_invariant.2.2.2 initOptState 0 1 ⟨true, false, 0, some 4⟩ (by decide)⟩

/-- C10: a non-binary convenience `collide` call overwrites exactly the
`collisionFilter` field of the detector-owned scratch option with the
caller's filter, leaving its other fields as they were (or as freshly
constructed when it did not yet exist), and the new value persists in
the detector state; a binary-check call leaves the scratch option
entirely unchanged. -/
theorem collide_scratch_frame_effect (s : OptState) (g1 g2 : Nat)
    (o : CollisionOption) :
    (o.binaryCheck = true →
      (collideOne s g1 o).state.mDummyCollisionOption = s.mDummyCollisionOption
      ∧ (collideTwo s g1 g2 o).state.mDummyCollisionOption
          = s.mDummyCollisionOption)
    ∧ (o.binaryCheck = false →
      (collideOne s g1 o).state.mDummyCollisionOption
        = some { (getDummyCollisionOption s).1 with
                   collisionFilter := o.collisionFilter }
      ∧ (collideTwo s g1 g2 o).state.mDummyCollisionOption
        = some { (getDummyCollisionOption s).1 with
                   collisionFilter := o.collisionFilter }) := by
  constructor
  · intro hb
    rw [collideOne_binary hb, collideTwo_binary hb]
    exact ⟨rfl, rfl⟩
  · intro hb
    rw [collideOne_nonbinary hb, collideTwo_nonbinary hb]
    exact ⟨rfl, rfl⟩

/-- Witness for C10: a binary call preserves a concrete scratch option;
a non-binary call overwrites exactly its filter. -/
theorem collide_scratch_frame_effect_witness :
    ((collideOne ⟨some ⟨false, true, 1, some 2⟩, false⟩ 0
        ⟨false, true, 1, some 9⟩).state.mDummyCollisionOption
      = some ⟨false, true, 1, some 2⟩)
    ∧ ((collideOne ⟨some ⟨false, true, 1, some 2⟩, false⟩ 0
        ⟨true, false, 0, some 9⟩).state.mDummyCollisionOption
      = some ⟨false, true, 1, some 9⟩) := by
  constructor
  · exact ((collide_scratch_frame_effect ⟨some ⟨false, true, 1, some 2⟩, false⟩
      0 1 ⟨false, true, 1, some 9⟩).1 rfl).1
  · have := ((collide_scratch_frame_effect ⟨some ⟨false, true, 1, some 2⟩, false⟩
      0 1 ⟨true, false, 0, some 9⟩).2 rfl).1
    simpa [getDummyCollisionOption] using this

theorem claimManyExclusive_lb (s : ExclState) (hs : List Nat) :
    ∀ o ∈ (claimManyExclusive s hs).1, s.nextId ≤ o.oid := by
  induction hs generalizing s with
  | nil => intro o ho; cases ho
  | cons h t ih =>
      intro o ho
      simp only [claimManyExclusive, claimExclusive] at ho
      rcases List.mem_cons.mp ho with hc | ht
      · rw [hc]
      · have := ih ⟨s.nextId + 1⟩ o ht
        simp only at this
        omega

theorem claimManyExclusive_nodup (s : ExclState) (hs : List Nat) :
    ((claimManyExclusive s hs).1.map ExclObj.oid).Nodup := by
  induction hs generalizing s with
  | nil => simp [claimManyExclusive]
  | cons h t ih =>
      simp only [claimManyExclusive, claimExclusive, List.map_cons]
      refine List.nodup_cons.mpr ⟨?_, ih _⟩
      intro hmem
      obtain ⟨o, ho, he⟩ := List.mem_map.mp hmem
      have hlb := claimManyExclusive_lb ⟨s.nextId + 1⟩ t o ho
      simp only at hlb he
      omega

/-- C3: under the shared policy, while a prior owning reference to the
object for handle `h` is still alive (the object is in the live set), a
further `claimCollisionObject(h)` returns the same underlying object
(its identity), only incrementing its reference count: the map, the
identity sequence of live objects, and the fresh-identity counter are
unchanged, so no new object is constructed. -/
theorem shared_claim_same_object (s : SharedState) (h : Nat) (o : LiveObj)
    (hinv : SharedInv s) (hmem : o ∈ s.objs) (hframe : o.frame = h) :
    claimShared s h = some (o.oid, incRef s o.oid)
    ∧ (incRef s o.oid).objs.map LiveObj.oid = s.objs.map LiveObj.oid
    ∧ (incRef s o.oid).cmap = s.cmap
    ∧ (incRef s o.oid).nextId = s.nextId := by
  have hmap := hinv.liveMapped o hmem
  rw [hframe] at hmap
  have hl : lookupFrame s.cmap h = some o.oid := mem_lookupFrame hinv.keysNodup hmap
  have hf : findObj s.objs o.oid = some o := mem_findObj hinv.oidsNodup hmem
  refine ⟨claimShared_hit hl hf, ?_, rfl, rfl⟩
  show (s.objs.map _).map LiveObj.oid = s.objs.map LiveObj.oid
  exact map_oid_refUpdate _ _
    (fun o2 => by by_cases h2 : o2.oid = o.oid <;> simp [h2])

/-- Witness for C3 at a one-entry cache. -/
theorem shared_claim_same_object_witness :
    claimShared ⟨[(5, 0)], [⟨0, 5, 1⟩], 1⟩ 5
      = some (0, incRef ⟨[(5, 0)], [⟨0, 5, 1⟩], 1⟩ 0) :=
  (shared_claim_same_object ⟨[(5, 0)], [⟨0, 5, 1⟩], 1⟩ 5 ⟨0, 5, 1⟩
    ⟨by decide, by decide, by decide, by decide, by decide, by decide⟩
    (by decide) rfl).1

/-- C4: under the exclusive policy every claim constructs a brand-new
object for the requested shape-frame: the returned object carries the
fresh identity, the manager state afterwards does not depend on the
handle (no handle-to-object map is kept, the state is only the
fresh-identity counter), and the objects returned across any sequence of
claims have pairwise distinct identities. -/
theorem exclusive_claim_always_fresh :
    (∀ (s : ExclState) (h : Nat),
        claimExclusive s h = (⟨s.nextId, h⟩, ⟨s.nextId + 1⟩))
    ∧ (∀ (s : ExclState) (h h2 : Nat),
        (claimExclusive s h).2 = (claimExclusive s h2).2)
    ∧ (∀ (s : ExclState) (hs : List Nat),
        ((claimManyExclusive s hs).1.map ExclObj.oid).Nodup) :=
  ⟨fun _ _ => rfl, fun _ _ _ => rfl, claimManyExclusive_nodup⟩

/-- C5: under the shared policy, releasing the last owning reference of
the object for a handle leaves the cache with no entry for that handle,
and a subsequent claim behaves as a first-ever request: it constructs
and returns a fresh object whose identity is the (unchanged) counter
value, distinct from the destroyed object's identity. -/
theorem shared_release_no_stale (s : SharedState) (o : LiveObj)
    (hinv : SharedInv s) (hmem : o ∈ s.objs) (hlast : o.refCount = 1) :
    lookupFrame (releaseShared s o.oid).1.cmap o.frame = none
    ∧ claimShared (releaseShared s o.oid).1 o.frame
        = some ((releaseShared s o.oid).1.nextId,
            ⟨(o.frame, (releaseShared s o.oid).1.nextId)
                :: (releaseShared s o.oid).1.cmap,
             ⟨(releaseShared s o.oid).1.nextId, o.frame, 1⟩
                :: (releaseShared s o.oid).1.objs,
             (releaseShared s o.oid).1.nextId + 1⟩)
    ∧ (releaseShared s o.oid).1.nextId = s.nextId
    ∧ ¬ (releaseShared s o.oid).1.nextId = o.oid := by
  have hf : findObj s.objs o.oid = some o := mem_findObj hinv.oidsNodup hmem
  have hrel : releaseShared s o.oid = sharedDeleter s o :=
    releaseShared_last hf (by omega)
  rw [hrel]
  have hnone : lookupFrame (sharedDeleter s o).1.cmap o.frame = none := by
    apply lookupFrame_eq_none.mpr
    intro p hp
    have := (List.mem_filter.mp hp).2
    simpa using this
  refine ⟨hnone, claimShared_miss hnone, rfl, ?_⟩
  have := hinv.oidLt o hmem
  show ¬ s.nextId = o.oid
  omega

/-- Witness for C5 at a one-entry cache holding its last reference. -/
theorem shared_release_no_stale_witness :
    lookupFrame (releaseShared ⟨[(5, 0)], [⟨0, 5, 1⟩], 1⟩ 0).1.cmap 5 = none :=
  (shared_release_no_stale ⟨[(5, 0)], [⟨0, 5, 1⟩], 1⟩ ⟨0, 5, 1⟩
    ⟨by decide, by decide, by decide, by decide, by decide, by decide⟩
    (by decide) rfl).1

/-- C6: on the last release of a shared-policy object, the destruction
callback performs exactly, in order: notify the owning detector, erase
the map entry keyed by the object's shape-frame, delete the backend
object.  The erase is by key, so every entry under a different
shape-frame survives; the exclusive-policy deleter likewise notifies
before deleting. -/
theorem shared_deleter_steps (s : SharedState) (o : LiveObj)
    (hf : findObj s.objs o.oid = some o) (hrc : o.refCount ≤ 1) :
    releaseShared s o.oid = sharedDeleter s o
    ∧ (sharedDeleter s o).2
        = [DeleterEvent.notifyDestroying o.oid,
           DeleterEvent.eraseMapEntry o.frame,
           DeleterEvent.deleteObject o.oid]
    ∧ lookupFrame (sharedDeleter s o).1.cmap o.frame = none
    ∧ (∀ p ∈ s.cmap, ¬ p.1 = o.frame → p ∈ (sharedDeleter s o).1.cmap)
    ∧ exclusiveDeleter ⟨o.oid, o.frame⟩
        = [DeleterEvent.notifyDestroying o.oid,
           DeleterEvent.deleteObject o.oid] := by
  refine ⟨releaseShared_last hf hrc, rfl, ?_, ?_, rfl⟩
  · apply lookupFrame_eq_none.mpr
    intro p hp
    have := (List.mem_filter.mp hp).2
    simpa using this
  · intro p hp hpne
    exact List.mem_filter.mpr ⟨hp, by simpa using hpne⟩

/-- Witness for C6 at a one-entry cache. -/
theorem shared_deleter_steps_witness :
    (sharedDeleter ⟨[(5, 0)], [⟨0, 5, 1⟩], 1⟩ ⟨0, 5, 1⟩).2
      = [DeleterEvent.notifyDestroying 0, DeleterEvent.eraseMapEntry 5,
         DeleterEvent.deleteObject 0] :=
  (shared_deleter_steps ⟨[(5, 0)], [⟨0, 5, 1⟩], 1⟩ ⟨0, 5, 1⟩
    (by decide) (by decide)).2.1

/-- C7: the base `claimCollisionObject` lazily constructs an
exclusive-policy (`ManagerForUnsharableCollisionObjects`) cache when
none exists yet, and in every case delegates the claim to the manager in
place. -/
theorem claim_lazy_default_exclusive (h : Nat) :
    claimCollisionObject ⟨none⟩ h
      = claimCollisionObject ⟨some (Manager.unshared initExclState)⟩ h
    ∧ (∀ st : ExclState, claimCollisionObject ⟨some (Manager.unshared st)⟩ h
        = some ((claimExclusive st h).1.oid,
            ⟨some (Manager.unshared (claimExclusive st h).2)⟩))
    ∧ (∀ st : SharedState, claimCollisionObject ⟨some (Manager.shared st)⟩ h
        = (claimShared st h).map (fun r => (r.1, ⟨some (Manager.shared r.2)⟩))) :=
  ⟨rfl, fun _ => rfl, fun _ => rfl⟩

/-- C8: in every reachable shared-policy cache state, a claim never
finds a dead weak reference: the lookup-and-lock in
`claimCollisionObject` cannot hit the assertion failure, because the
deleter erases the map entry before the object dies. -/
theorem shared_claim_no_dead_entry (s : SharedState) (h : Nat)
    (hr : SharedReachable s) : ¬ claimShared s h = none := by
  have hinv := sharedReachable_inv hr
  cases hl : lookupFrame s.cmap h with
  | none =>
      rw [claimShared_miss hl]
      intro hx; cases hx
  | some oid =>
      obtain ⟨o, ho, hoid, _⟩ := hinv.mapLive (h, oid) (lookupFrame_mem hl)
      have hfo : findObj s.objs oid = some o := by
        have := mem_findObj hinv.oidsNodup ho
        rw [hoid] at this
        exact this
      rw [claimShared_hit hl hfo]
      intro hx; cases hx

/-- Witness for C8 at the initial (reachable) cache state. -/
theorem shared_claim_no_dead_entry_witness :
    ¬ claimShared initSharedState 0 = none :=
  shared_claim_no_dead_entry initSharedState 0 SharedReachable.init

end Dart
